import Mathlib

/-!
Verification of the UUID builder core (`src/builder/mod.rs`).

Embedding conventions:
- A Rust byte buffer (`Bytes = [u8; 16]`, `&[u8]`, `&[u8; 8]`) is a `List Nat`
  whose entries are byte values; fixed lengths and byte bounds appear as
  hypotheses of the theorems where they matter.
- Rust `x >> k` on an unsigned integer is `x / 2 ^ k`, and the truncating cast
  `as u8` is `% 256`; `x << k` on `u8` is `(x <<< k) % 256`.
- Indexing a statically sized array (`d4[i]` for `d4 : &[u8; 8]`) is `List.getD`
  (the static type rules out the out-of-range case); indexing a variable-length
  slice (`d4[i]` for `d4 : &[u8]`) is the optional `d4[i]?`, so that a
  constructor whose slice indexing can panic is `Option`-valued, with `none`
  modelling the index-out-of-bounds panic.
- Rust `Result<T, Error>` is `Except LengthMismatch T`.
-/

set_option maxRecDepth 16384
set_option maxHeartbeats 1000000

/-- Modelled from the spec: the crate error condition (its type lives in
`builder/error.rs`, which is not under `src/`): a length mismatch carrying the
expected length (always 16) and the actual length observed. -/
structure LengthMismatch where
  expected : Nat
  actual : Nat
deriving DecidableEq

/-- Modelled from the spec: the `Uuid` value type declared at the crate root
(not under `src/`): an immutable wrapper around a 16-byte buffer, bytes stored
verbatim in RFC 4122 big-endian wire order. -/
structure Uuid where
  bytes : List Nat
deriving DecidableEq

/-- `Uuid::as_bytes`: read access to the wrapped byte buffer. -/
def Uuid.as_bytes (u : Uuid) : List Nat := u.bytes

/-- `Uuid::from_bytes`: wraps the 16 supplied bytes directly, no reordering. -/
def Uuid.from_bytes (b : List Nat) : Uuid := Uuid.mk b

/-- `Uuid::nil`: the all-zero UUID. -/
def Uuid.nil : Uuid := Uuid.from_bytes (List.replicate 16 0)

/-- `Uuid::from_fields(d1: u32, d2: u16, d3: u16, d4: &[u8; 8])`: packs the
fields big-endian, `d4` copied verbatim. -/
def Uuid.from_fields (d1 d2 d3 : Nat) (d4 : List Nat) : Uuid :=
  Uuid.from_bytes [
    d1 / 2 ^ 24 % 256, d1 / 2 ^ 16 % 256, d1 / 2 ^ 8 % 256, d1 % 256,
    d2 / 2 ^ 8 % 256, d2 % 256,
    d3 / 2 ^ 8 % 256, d3 % 256,
    d4.getD 0 0, d4.getD 1 0, d4.getD 2 0, d4.getD 3 0,
    d4.getD 4 0, d4.getD 5 0, d4.getD 6 0, d4.getD 7 0]

/-- `Uuid::from_fields_le(d1: u32, d2: u16, d3: u16, d4: &[u8])`: same field
placement with `d1`, `d2`, `d3` byte-swapped. Note that in the source `d4` is a
variable-length slice (`&[u8]`, unlike the `&[u8; 8]` of `from_fields`), and is
indexed at 0..7 without a length check; the result is `none` exactly when that
indexing would panic. -/
def Uuid.from_fields_le (d1 d2 d3 : Nat) (d4 : List Nat) : Option Uuid := do
  let b8 ← d4[0]?
  let b9 ← d4[1]?
  let b10 ← d4[2]?
  let b11 ← d4[3]?
  let b12 ← d4[4]?
  let b13 ← d4[5]?
  let b14 ← d4[6]?
  let b15 ← d4[7]?
  pure (Uuid.from_bytes [
    d1 % 256, d1 / 2 ^ 8 % 256, d1 / 2 ^ 16 % 256, d1 / 2 ^ 24 % 256,
    d2 % 256, d2 / 2 ^ 8 % 256,
    d3 % 256, d3 / 2 ^ 8 % 256,
    b8, b9, b10, b11, b12, b13, b14, b15])

/-- `Uuid::from_u128`: packs a 128-bit value big-endian, most significant byte
first. -/
def Uuid.from_u128 (v : Nat) : Uuid :=
  Uuid.from_bytes [
    v / 2 ^ 120 % 256, v / 2 ^ 112 % 256, v / 2 ^ 104 % 256, v / 2 ^ 96 % 256,
    v / 2 ^ 88 % 256, v / 2 ^ 80 % 256, v / 2 ^ 72 % 256, v / 2 ^ 64 % 256,
    v / 2 ^ 56 % 256, v / 2 ^ 48 % 256, v / 2 ^ 40 % 256, v / 2 ^ 32 % 256,
    v / 2 ^ 24 % 256, v / 2 ^ 16 % 256, v / 2 ^ 8 % 256, v % 256]

/-- `Uuid::from_u128_le`: packs a 128-bit value least significant byte first. -/
def Uuid.from_u128_le (v : Nat) : Uuid :=
  Uuid.from_bytes [
    v % 256, v / 2 ^ 8 % 256, v / 2 ^ 16 % 256, v / 2 ^ 24 % 256,
    v / 2 ^ 32 % 256, v / 2 ^ 40 % 256, v / 2 ^ 48 % 256, v / 2 ^ 56 % 256,
    v / 2 ^ 64 % 256, v / 2 ^ 72 % 256, v / 2 ^ 80 % 256, v / 2 ^ 88 % 256,
    v / 2 ^ 96 % 256, v / 2 ^ 104 % 256, v / 2 ^ 112 % 256, v / 2 ^ 120 % 256]

/-- `Uuid::from_u64_pair`: `high_bits` big-endian into bytes 0-7, `low_bits`
big-endian into bytes 8-15. -/
def Uuid.from_u64_pair (high_bits low_bits : Nat) : Uuid :=
  Uuid.from_bytes [
    high_bits / 2 ^ 56 % 256, high_bits / 2 ^ 48 % 256,
    high_bits / 2 ^ 40 % 256, high_bits / 2 ^ 32 % 256,
    high_bits / 2 ^ 24 % 256, high_bits / 2 ^ 16 % 256,
    high_bits / 2 ^ 8 % 256, high_bits % 256,
    low_bits / 2 ^ 56 % 256, low_bits / 2 ^ 48 % 256,
    low_bits / 2 ^ 40 % 256, low_bits / 2 ^ 32 % 256,
    low_bits / 2 ^ 24 % 256, low_bits / 2 ^ 16 % 256,
    low_bits / 2 ^ 8 % 256, low_bits % 256]

/-- `Uuid::from_slice`: succeeds only on byte sequences of length exactly 16,
copying them verbatim; any other length is a `LengthMismatch` error built as
`Error::new(BYTES_LEN, len)` with `BYTES_LEN = 16`. -/
def Uuid.from_slice (b : List Nat) : Except LengthMismatch Uuid :=
  if b.length ≠ 16 then Except.error (LengthMismatch.mk 16 b.length)
  else Except.ok (Uuid.from_bytes b)

/-- Modelled from the spec: the mutable `Builder` staging type declared at the
crate root (not under `src/`); it wraps the same 16-byte layout as `Uuid`. -/
structure Builder where
  bytes : List Nat
deriving DecidableEq

/-- Modelled from the spec: the external `Variant` enumeration (four members);
its member-to-bit-pattern mapping is taken from the `match` arms in
`builder/mod.rs`. -/
inductive Variant where
  | NCS
  | RFC4122
  | Microsoft
  | Future
deriving DecidableEq

/-- `Builder::from_bytes`: wraps the 16 supplied bytes directly. -/
def Builder.from_bytes (b : List Nat) : Builder := Builder.mk b

/-- `Builder::from_slice`: same length validation as `Uuid::from_slice`. -/
def Builder.from_slice (b : List Nat) : Except LengthMismatch Builder :=
  if b.length ≠ 16 then Except.error (LengthMismatch.mk 16 b.length)
  else Except.ok (Builder.from_bytes b)

/-- `Builder::from_fields`: delegates to `Uuid::from_fields`. -/
def Builder.from_fields (d1 d2 d3 : Nat) (d4 : List Nat) : Builder :=
  Builder.from_bytes (Uuid.from_fields d1 d2 d3 d4).as_bytes

/-- `Builder::from_fields_le`: delegates to `Uuid::from_fields_le`, passing its
statically sized `&[u8; 8]` argument as a slice. -/
def Builder.from_fields_le (d1 d2 d3 : Nat) (d4 : List Nat) : Option Builder :=
  (Uuid.from_fields_le d1 d2 d3 d4).map fun u => Builder.from_bytes u.as_bytes

/-- `Builder::from_u128`: delegates to `Uuid::from_u128`. -/
def Builder.from_u128 (v : Nat) : Builder :=
  Builder.from_bytes (Uuid.from_u128 v).as_bytes

/-- `Builder::nil`: a builder holding the all-zero bytes. -/
def Builder.nil : Builder := Builder.mk (List.replicate 16 0)

/-- `Builder::set_variant`: rewrites byte index 8 by masking and tagging
according to the variant; the mask patterns `0x7f`, `0x3f | 0x80`,
`0x1f | 0xc0`, `0x1f | 0xe0` are those of the source `match`. -/
def Builder.set_variant (b : Builder) (v : Variant) : Builder :=
  let byte := b.bytes.getD 8 0
  Builder.mk (b.bytes.set 8 (match v with
    | Variant.NCS => byte &&& 0x7f
    | Variant.RFC4122 => (byte &&& 0x3f) ||| 0x80
    | Variant.Microsoft => (byte &&& 0x1f) ||| 0xc0
    | Variant.Future => (byte &&& 0x1f) ||| 0xe0))

/-- `Builder::with_variant`: the value-returning form; its body is a verbatim
copy of `set_variant` in the source. -/
def Builder.with_variant (b : Builder) (v : Variant) : Builder :=
  let byte := b.bytes.getD 8 0
  Builder.mk (b.bytes.set 8 (match v with
    | Variant.NCS => byte &&& 0x7f
    | Variant.RFC4122 => (byte &&& 0x3f) ||| 0x80
    | Variant.Microsoft => (byte &&& 0x1f) ||| 0xc0
    | Variant.Future => (byte &&& 0x1f) ||| 0xe0))

/-- `Builder::set_version`: `self.0[6] = (self.0[6] & 0x0f) | ((v as u8) << 4)`.
The external `Version` enumeration enters only through its numeric value
(0-15 per the spec), taken here as a `Nat` argument. -/
def Builder.set_version (b : Builder) (v : Nat) : Builder :=
  Builder.mk (b.bytes.set 6 ((b.bytes.getD 6 0 &&& 0x0f) ||| (v <<< 4) % 256))

/-- `Builder::with_version`: the value-returning form; its body is a verbatim
copy of `set_version` in the source. -/
def Builder.with_version (b : Builder) (v : Nat) : Builder :=
  Builder.mk (b.bytes.set 6 ((b.bytes.getD 6 0 &&& 0x0f) ||| (v <<< 4) % 256))

/-- `Builder::build`: freezes the current bytes into a `Uuid`. -/
def Builder.build (b : Builder) : Uuid := Uuid.from_bytes b.bytes

/-- `Builder::into_uuid`: consuming finalization, same bytes as `build`. -/
def Builder.into_uuid (b : Builder) : Uuid := Uuid.from_bytes b.bytes

/-- Big-endian reinterpretation of a byte sequence as a natural number; this is
the specification-side decoder used to state the layout and round-trip laws. -/
def beVal (l : List Nat) : Nat := l.foldl (fun acc b => acc * 256 + b) 0

/-- The byte-swap of a 32-bit value (`u32::swap_bytes` of the field law). -/
def swap_bytes32 (x : Nat) : Nat :=
  x % 256 * 2 ^ 24 + x / 2 ^ 8 % 256 * 2 ^ 16 + x / 2 ^ 16 % 256 * 2 ^ 8 +
    x / 2 ^ 24 % 256

/-- The byte-swap of a 16-bit value (`u16::swap_bytes` of the field law). -/
def swap_bytes16 (x : Nat) : Nat := x % 256 * 2 ^ 8 + x / 2 ^ 8 % 256

lemma swap_bytes32_byte_extraction (x : Nat) :
    swap_bytes32 x / 2 ^ 24 % 256 = x % 256 ∧
    swap_bytes32 x / 2 ^ 16 % 256 = x / 2 ^ 8 % 256 ∧
    swap_bytes32 x / 2 ^ 8 % 256 = x / 2 ^ 16 % 256 ∧
    swap_bytes32 x % 256 = x / 2 ^ 24 % 256 := by
  have g : ∀ a b c d : Nat, a < 256 → b < 256 → c < 256 → d < 256 →
      (a * 2 ^ 24 + b * 2 ^ 16 + c * 2 ^ 8 + d) / 2 ^ 24 % 256 = a ∧
      (a * 2 ^ 24 + b * 2 ^ 16 + c * 2 ^ 8 + d) / 2 ^ 16 % 256 = b ∧
      (a * 2 ^ 24 + b * 2 ^ 16 + c * 2 ^ 8 + d) / 2 ^ 8 % 256 = c ∧
      (a * 2 ^ 24 + b * 2 ^ 16 + c * 2 ^ 8 + d) % 256 = d := by
    intro a b c d h0 h1 h2 h3
    omega
  exact g (x % 256) (x / 2 ^ 8 % 256) (x / 2 ^ 16 % 256) (x / 2 ^ 24 % 256)
    (by omega) (by omega) (by omega) (by omega)

lemma swap_bytes16_byte_extraction (x : Nat) :
    swap_bytes16 x / 2 ^ 8 % 256 = x % 256 ∧
    swap_bytes16 x % 256 = x / 2 ^ 8 % 256 := by
  have g : ∀ a b : Nat, a < 256 → b < 256 →
      (a * 2 ^ 8 + b) / 2 ^ 8 % 256 = a ∧ (a * 2 ^ 8 + b) % 256 = b := by
    intro a b h0 h1
    omega
  exact g (x % 256) (x / 2 ^ 8 % 256) (by omega) (by omega)

lemma variant_byte_idem : ∀ z < 256,
    ((z &&& 0x7f) &&& 0x7f) = z &&& 0x7f ∧
    ((((z &&& 0x3f) ||| 0x80) &&& 0x3f) ||| 0x80) = (z &&& 0x3f) ||| 0x80 ∧
    ((((z &&& 0x1f) ||| 0xc0) &&& 0x1f) ||| 0xc0) = (z &&& 0x1f) ||| 0xc0 ∧
    ((((z &&& 0x1f) ||| 0xe0) &&& 0x1f) ||| 0xe0) = (z &&& 0x1f) ||| 0xe0 := by
  decide

lemma version_byte_idem : ∀ z < 256, ∀ y < 16,
    (((z &&& 0x0f) ||| (y <<< 4) % 256) &&& 0x0f) ||| (y <<< 4) % 256 =
      (z &&& 0x0f) ||| (y <<< 4) % 256 := by
  decide

lemma variant_byte_preserved : ∀ z < 256,
    (z &&& 0x7f) % 128 = z % 128 ∧
    ((z &&& 0x3f) ||| 0x80) % 64 = z % 64 ∧
    ((z &&& 0x1f) ||| 0xc0) % 32 = z % 32 ∧
    ((z &&& 0x1f) ||| 0xe0) % 32 = z % 32 := by
  decide

/-- Claim C1: the spec asserts that every fixed-size constructor is total and
that `from_slice` is the only fallible operation, in particular that
`Uuid::from_fields_le` never fails for any `d4` byte-sequence argument. The
code contradicts this: `Uuid::from_fields_le` takes `d4: &[u8]` (a
variable-length slice, unlike the `&[u8; 8]` of `Uuid::from_fields` and
`Builder::from_fields_le`) and indexes `d4[0]` through `d4[7]` unchecked, so it
panics whenever `d4` has fewer than 8 bytes. This theorem evaluates the
embedded constructor at the failing input `d4 = []`: no value is produced. -/
theorem uuid_from_fields_le_short_d4_has_no_value :
    Uuid.from_fields_le 0 0 0 [] = none := rfl

/-- Claim C2: for every byte sequence `b`, `Uuid::from_slice b` succeeds if and
only if `b` has length exactly 16, in which case it returns the same value as
`Uuid::from_bytes` on those 16 bytes; otherwise it returns a `LengthMismatch`
error carrying expected = 16 and actual = length of `b`. -/
theorem uuid_from_slice_length_spec (b : List Nat) :
    Uuid.from_slice b =
      if b.length = 16 then Except.ok (Uuid.from_bytes b)
      else Except.error (LengthMismatch.mk 16 b.length) := by
  by_cases h : b.length = 16 <;> simp [Uuid.from_slice, h]

/-- Claim C3: `Uuid::from_fields` writes `d1` most-significant-byte-first into
bytes 0-3, `d2` into bytes 4-5, `d3` into bytes 6-7, and copies `d4` verbatim
into bytes 8-15; in particular the documented concrete example produces the
bytes of `ab3f1097-501e-b736-0c03-0938362b0809`. -/
theorem uuid_from_fields_big_endian_layout (d1 d2 d3 : Nat)
    (h1 : d1 < 2 ^ 32) (h2 : d2 < 2 ^ 16) (h3 : d3 < 2 ^ 16)
    (d4 : List Nat) (h4 : d4.length = 8) :
    beVal ((Uuid.from_fields d1 d2 d3 d4).bytes.take 4) = d1 ∧
    beVal (((Uuid.from_fields d1 d2 d3 d4).bytes.drop 4).take 2) = d2 ∧
    beVal (((Uuid.from_fields d1 d2 d3 d4).bytes.drop 6).take 2) = d3 ∧
    (Uuid.from_fields d1 d2 d3 d4).bytes.drop 8 = d4 ∧
    (Uuid.from_fields 0xAB3F1097 0x501E 0xB736 [12, 3, 9, 56, 54, 43, 8, 9]).bytes =
      [0xab, 0x3f, 0x10, 0x97, 0x50, 0x1e, 0xb7, 0x36,
       0x0c, 0x03, 0x09, 0x38, 0x36, 0x2b, 0x08, 0x09] := by
  refine ⟨?_, ?_, ?_, ?_, by decide⟩
  · simp only [Uuid.from_fields, Uuid.from_bytes, beVal, List.take, List.foldl]
    omega
  · simp only [Uuid.from_fields, Uuid.from_bytes, beVal, List.take, List.drop,
      List.foldl]
    omega
  · simp only [Uuid.from_fields, Uuid.from_bytes, beVal, List.take, List.drop,
      List.foldl]
    omega
  · rcases d4 with _ | ⟨a0, _ | ⟨a1, _ | ⟨a2, _ | ⟨a3, _ | ⟨a4, _ | ⟨a5, _ |
      ⟨a6, _ | ⟨a7, _ | ⟨a8, t⟩⟩⟩⟩⟩⟩⟩⟩⟩ <;>
      simp_all [Uuid.from_fields, Uuid.from_bytes]

/-- Witness for C3 at the spec's concrete example. -/
theorem uuid_from_fields_big_endian_layout_witness :
    0xAB3F1097 < 2 ^ 32 ∧ 0x501E < 2 ^ 16 ∧ 0xB736 < 2 ^ 16 ∧
    ([12, 3, 9, 56, 54, 43, 8, 9] : List Nat).length = 8 ∧
    (beVal ((Uuid.from_fields 0xAB3F1097 0x501E 0xB736
        [12, 3, 9, 56, 54, 43, 8, 9]).bytes.take 4) = 0xAB3F1097 ∧
      beVal (((Uuid.from_fields 0xAB3F1097 0x501E 0xB736
        [12, 3, 9, 56, 54, 43, 8, 9]).bytes.drop 4).take 2) = 0x501E ∧
      beVal (((Uuid.from_fields 0xAB3F1097 0x501E 0xB736
        [12, 3, 9, 56, 54, 43, 8, 9]).bytes.drop 6).take 2) = 0xB736 ∧
      (Uuid.from_fields 0xAB3F1097 0x501E 0xB736
        [12, 3, 9, 56, 54, 43, 8, 9]).bytes.drop 8 = [12, 3, 9, 56, 54, 43, 8, 9] ∧
      (Uuid.from_fields 0xAB3F1097 0x501E 0xB736 [12, 3, 9, 56, 54, 43, 8, 9]).bytes =
        [0xab, 0x3f, 0x10, 0x97, 0x50, 0x1e, 0xb7, 0x36,
         0x0c, 0x03, 0x09, 0x38, 0x36, 0x2b, 0x08, 0x09]) :=
  ⟨by decide, by decide, by decide, by decide,
    uuid_from_fields_big_endian_layout 0xAB3F1097 0x501E 0xB736
      (by decide) (by decide) (by decide) [12, 3, 9, 56, 54, 43, 8, 9] (by decide)⟩

/-- Claim C4: for every `d1`, `d2`, `d3` and 8-byte `d4`,
`from_fields_le(d1, d2, d3, d4)` produces exactly the bytes of
`from_fields(swap_bytes(d1), swap_bytes(d2), swap_bytes(d3), d4)`: the three
numeric fields are byte-swapped per field and `d4` is placed untouched. -/
theorem uuid_from_fields_le_swaps_numeric_fields (d1 d2 d3 : Nat)
    (d4 : List Nat) (h4 : d4.length = 8) :
    Uuid.from_fields_le d1 d2 d3 d4 =
      some (Uuid.from_fields (swap_bytes32 d1) (swap_bytes16 d2)
        (swap_bytes16 d3) d4) := by
  obtain ⟨s1, s2, s3, s4⟩ := swap_bytes32_byte_extraction d1
  obtain ⟨t1, t2⟩ := swap_bytes16_byte_extraction d2
  obtain ⟨u1, u2⟩ := swap_bytes16_byte_extraction d3
  rcases d4 with _ | ⟨a0, _ | ⟨a1, _ | ⟨a2, _ | ⟨a3, _ | ⟨a4, _ | ⟨a5, _ |
    ⟨a6, _ | ⟨a7, _ | ⟨a8, t⟩⟩⟩⟩⟩⟩⟩⟩⟩ <;>
    simp_all [Uuid.from_fields_le, Uuid.from_fields, Uuid.from_bytes]

/-- Witness for C4 at the spec's concrete field values. -/
theorem uuid_from_fields_le_swaps_numeric_fields_witness :
    ([12, 3, 9, 56, 54, 43, 8, 9] : List Nat).length = 8 ∧
    Uuid.from_fields_le 0xAB3F1097 0x501E 0xB736 [12, 3, 9, 56, 54, 43, 8, 9] =
      some (Uuid.from_fields (swap_bytes32 0xAB3F1097) (swap_bytes16 0x501E)
        (swap_bytes16 0xB736) [12, 3, 9, 56, 54, 43, 8, 9]) :=
  ⟨by decide,
    uuid_from_fields_le_swaps_numeric_fields 0xAB3F1097 0x501E 0xB736
      [12, 3, 9, 56, 54, 43, 8, 9] (by decide)⟩

/-- Claim C5: for every 128-bit value `v`, `Uuid::from_u128 v` fills all 16
bytes with `v` in big-endian order, so reinterpreting the bytes as a big-endian
128-bit integer yields `v` again. -/
theorem uuid_from_u128_big_endian_roundtrip (v : Nat) (hv : v < 2 ^ 128) :
    beVal (Uuid.from_u128 v).bytes = v := by
  have hsplit : ∀ b0 b1 b2 b3 b4 b5 b6 b7 c0 c1 c2 c3 c4 c5 c6 c7 : Nat,
      beVal [b0, b1, b2, b3, b4, b5, b6, b7, c0, c1, c2, c3, c4, c5, c6, c7] =
        beVal [b0, b1, b2, b3, b4, b5, b6, b7] * 2 ^ 64 +
          beVal [c0, c1, c2, c3, c4, c5, c6, c7] := by
    intros
    simp only [beVal, List.foldl]
    ring
  have hlow : ∀ w : Nat,
      beVal [w / 2 ^ 56 % 256, w / 2 ^ 48 % 256, w / 2 ^ 40 % 256,
        w / 2 ^ 32 % 256, w / 2 ^ 24 % 256, w / 2 ^ 16 % 256,
        w / 2 ^ 8 % 256, w % 256] = w % 2 ^ 64 := by
    intro w
    simp only [beVal, List.foldl]
    omega
  have hbytes : (Uuid.from_u128 v).bytes =
      [v / 2 ^ 64 / 2 ^ 56 % 256, v / 2 ^ 64 / 2 ^ 48 % 256,
       v / 2 ^ 64 / 2 ^ 40 % 256, v / 2 ^ 64 / 2 ^ 32 % 256,
       v / 2 ^ 64 / 2 ^ 24 % 256, v / 2 ^ 64 / 2 ^ 16 % 256,
       v / 2 ^ 64 / 2 ^ 8 % 256, v / 2 ^ 64 % 256,
       v / 2 ^ 56 % 256, v / 2 ^ 48 % 256, v / 2 ^ 40 % 256, v / 2 ^ 32 % 256,
       v / 2 ^ 24 % 256, v / 2 ^ 16 % 256, v / 2 ^ 8 % 256, v % 256] := by
    simp only [Uuid.from_u128, Uuid.from_bytes]
    norm_num [Nat.div_div_eq_div_mul]
  rw [hbytes, hsplit, hlow (v / 2 ^ 64), hlow v]
  omega

/-- Witness for C5 at the documented example value. -/
theorem uuid_from_u128_big_endian_roundtrip_witness :
    0xa1a2a3a4b1b2c1c2d1d2d3d4d5d6d7d8 < 2 ^ 128 ∧
    beVal (Uuid.from_u128 0xa1a2a3a4b1b2c1c2d1d2d3d4d5d6d7d8).bytes =
      0xa1a2a3a4b1b2c1c2d1d2d3d4d5d6d7d8 :=
  ⟨by decide,
    uuid_from_u128_big_endian_roundtrip 0xa1a2a3a4b1b2c1c2d1d2d3d4d5d6d7d8
      (by decide)⟩

/-- Claim C6: for every value `v`, the 16 bytes of `Uuid::from_u128_le v` are
the 16 bytes of `Uuid::from_u128 v` with the whole buffer order reversed (a
complete reversal, not a per-field swap). -/
theorem uuid_from_u128_le_full_reversal (v : Nat) :
    (Uuid.from_u128_le v).bytes = (Uuid.from_u128 v).bytes.reverse := rfl

/-- Claim C7: `Uuid::from_u64_pair` writes `high_bits` big-endian into bytes
0-7 and `low_bits` big-endian into bytes 8-15. -/
theorem uuid_from_u64_pair_layout (hi lo : Nat)
    (h1 : hi < 2 ^ 64) (h2 : lo < 2 ^ 64) :
    beVal ((Uuid.from_u64_pair hi lo).bytes.take 8) = hi ∧
    beVal ((Uuid.from_u64_pair hi lo).bytes.drop 8) = lo := by
  constructor <;>
    · simp only [Uuid.from_u64_pair, Uuid.from_bytes, beVal, List.take,
        List.drop, List.foldl]
      omega

/-- Witness for C7 at the documented example values. -/
theorem uuid_from_u64_pair_layout_witness :
    0xa1a2a3a4b1b2c1c2 < 2 ^ 64 ∧ 0xd1d2d3d4d5d6d7d8 < 2 ^ 64 ∧
    (beVal ((Uuid.from_u64_pair 0xa1a2a3a4b1b2c1c2 0xd1d2d3d4d5d6d7d8).bytes.take 8) =
        0xa1a2a3a4b1b2c1c2 ∧
      beVal ((Uuid.from_u64_pair 0xa1a2a3a4b1b2c1c2 0xd1d2d3d4d5d6d7d8).bytes.drop 8) =
        0xd1d2d3d4d5d6d7d8) :=
  ⟨by decide, by decide,
    uuid_from_u64_pair_layout 0xa1a2a3a4b1b2c1c2 0xd1d2d3d4d5d6d7d8
      (by decide) (by decide)⟩

/-- Claim C8: for every 16-byte builder state and every variant,
`set_variant` (and the identical `with_variant`) rewrites only byte index 8
according to the mask table - NCS: `byte8 & 0x7F`; RFC4122:
`(byte8 & 0x3F) | 0x80`; Microsoft: `(byte8 & 0x1F) | 0xC0`; Future:
`(byte8 & 0x1F) | 0xE0` - leaving every other byte unchanged and preserving
the untagged low bits of byte 8 (7 bits for NCS, 6 for RFC4122, 5 for
Microsoft and Future); in particular RFC4122 applied to a byte-8 value of
`0x3E` yields `0xBE`. -/
theorem builder_variant_tagging_spec (b : Builder) (hlen : b.bytes.length = 16)
    (hb8 : b.bytes.getD 8 0 < 256) (v : Variant) :
    (b.set_variant v).bytes.length = 16 ∧
    (∀ i, i ≠ 8 → (b.set_variant v).bytes.getD i 0 = b.bytes.getD i 0) ∧
    b.with_variant v = b.set_variant v ∧
    (b.set_variant v).bytes.getD 8 0 =
      (match v with
        | Variant.NCS => b.bytes.getD 8 0 &&& 0x7f
        | Variant.RFC4122 => (b.bytes.getD 8 0 &&& 0x3f) ||| 0x80
        | Variant.Microsoft => (b.bytes.getD 8 0 &&& 0x1f) ||| 0xc0
        | Variant.Future => (b.bytes.getD 8 0 &&& 0x1f) ||| 0xe0) ∧
    (match v with
      | Variant.NCS =>
          (b.set_variant v).bytes.getD 8 0 % 128 = b.bytes.getD 8 0 % 128
      | Variant.RFC4122 =>
          (b.set_variant v).bytes.getD 8 0 % 64 = b.bytes.getD 8 0 % 64
      | Variant.Microsoft =>
          (b.set_variant v).bytes.getD 8 0 % 32 = b.bytes.getD 8 0 % 32
      | Variant.Future =>
          (b.set_variant v).bytes.getD 8 0 % 32 = b.bytes.getD 8 0 % 32) ∧
    (Builder.set_variant
        (Builder.from_bytes [0, 0, 0, 0, 0, 0, 0, 0, 0x3E, 0, 0, 0, 0, 0, 0, 0])
        Variant.RFC4122).bytes.getD 8 0 = 0xBE := by
  have hset_other : ∀ (j i a : Nat), j ≠ i →
      (b.bytes.set j a).getD i 0 = b.bytes.getD i 0 := by
    intro j i a hji
    rw [List.getD_eq_getElem?_getD, List.getElem?_set_ne hji,
      List.getD_eq_getElem?_getD]
  have hset_same : ∀ (i a : Nat), i < 16 → (b.bytes.set i a).getD i 0 = a := by
    intro i a hi
    rw [List.getD_eq_getElem?_getD, List.getElem?_set_eq_of_lt a (by omega)]
    rfl
  obtain ⟨p1, p2, p3, p4⟩ := variant_byte_preserved (b.bytes.getD 8 0) hb8
  refine ⟨?_, ?_, rfl, ?_, ?_, by decide⟩
  · simp [Builder.set_variant, hlen]
  · intro i hi
    simp only [Builder.set_variant]
    exact hset_other 8 i _ (by omega)
  · cases v <;> simp only [Builder.set_variant] <;> rw [hset_same 8 _ (by omega)]
  · cases v with
    | NCS =>
        simp only [Builder.set_variant]
        rw [hset_same 8 _ (by omega)]
        exact p1
    | RFC4122 =>
        simp only [Builder.set_variant]
        rw [hset_same 8 _ (by omega)]
        exact p2
    | Microsoft =>
        simp only [Builder.set_variant]
        rw [hset_same 8 _ (by omega)]
        exact p3
    | Future =>
        simp only [Builder.set_variant]
        rw [hset_same 8 _ (by omega)]
        exact p4

/-- Witness for C8 on a concrete builder whose byte 8 is `0x3E`, tagged with
RFC4122. -/
theorem builder_variant_tagging_spec_witness :
    (Builder.from_bytes
        [70, 235, 208, 238, 14, 109, 67, 201, 0x3E, 13, 204, 195, 90, 145, 63, 62]).bytes.length = 16 ∧
    (Builder.from_bytes
        [70, 235, 208, 238, 14, 109, 67, 201, 0x3E, 13, 204, 195, 90, 145, 63, 62]).bytes.getD 8 0 < 256 ∧
    ((Builder.set_variant (Builder.from_bytes
          [70, 235, 208, 238, 14, 109, 67, 201, 0x3E, 13, 204, 195, 90, 145, 63, 62])
        Variant.RFC4122).bytes.length = 16 ∧
      (∀ i, i ≠ 8 →
        (Builder.set_variant (Builder.from_bytes
            [70, 235, 208, 238, 14, 109, 67, 201, 0x3E, 13, 204, 195, 90, 145, 63, 62])
          Variant.RFC4122).bytes.getD i 0 =
        (Builder.from_bytes
            [70, 235, 208, 238, 14, 109, 67, 201, 0x3E, 13, 204, 195, 90, 145, 63, 62]).bytes.getD i 0) ∧
      Builder.with_variant (Builder.from_bytes
          [70, 235, 208, 238, 14, 109, 67, 201, 0x3E, 13, 204, 195, 90, 145, 63, 62])
        Variant.RFC4122 =
        Builder.set_variant (Builder.from_bytes
          [70, 235, 208, 238, 14, 109, 67, 201, 0x3E, 13, 204, 195, 90, 145, 63, 62])
        Variant.RFC4122 ∧
      (Builder.set_variant (Builder.from_bytes
          [70, 235, 208, 238, 14, 109, 67, 201, 0x3E, 13, 204, 195, 90, 145, 63, 62])
        Variant.RFC4122).bytes.getD 8 0 =
        ((Builder.from_bytes
            [70, 235, 208, 238, 14, 109, 67, 201, 0x3E, 13, 204, 195, 90, 145, 63, 62]).bytes.getD 8 0 &&& 0x3f) ||| 0x80 ∧
      (Builder.set_variant (Builder.from_bytes
          [70, 235, 208, 238, 14, 109, 67, 201, 0x3E, 13, 204, 195, 90, 145, 63, 62])
        Variant.RFC4122).bytes.getD 8 0 % 64 =
        (Builder.from_bytes
            [70, 235, 208, 238, 14, 109, 67, 201, 0x3E, 13, 204, 195, 90, 145, 63, 62]).bytes.getD 8 0 % 64 ∧
      (Builder.set_variant
          (Builder.from_bytes [0, 0, 0, 0, 0, 0, 0, 0, 0x3E, 0, 0, 0, 0, 0, 0, 0])
          Variant.RFC4122).bytes.getD 8 0 = 0xBE) :=
  ⟨by decide, by decide,
    builder_variant_tagging_spec
      (Builder.from_bytes
        [70, 235, 208, 238, 14, 109, 67, 201, 0x3E, 13, 204, 195, 90, 145, 63, 62])
      (by decide) (by decide) Variant.RFC4122⟩

/-- Claim C9: for every 16-byte builder state and every version number
`v < 16`, `set_version` (and the identical `with_version`) sets byte index 6
to `(byte6 & 0x0F) | (v << 4)` - the high nibble becomes the version, the low
nibble is preserved inside the mask - and every byte other than index 6 is
unchanged. -/
theorem builder_version_tagging_spec (b : Builder) (hlen : b.bytes.length = 16)
    (v : Nat) (hv : v < 16) :
    (b.set_version v).bytes.length = 16 ∧
    (∀ i, i ≠ 6 → (b.set_version v).bytes.getD i 0 = b.bytes.getD i 0) ∧
    b.with_version v = b.set_version v ∧
    (b.set_version v).bytes.getD 6 0 =
      (b.bytes.getD 6 0 &&& 0x0f) ||| (v <<< 4) := by
  have hset_other : ∀ (j i a : Nat), j ≠ i →
      (b.bytes.set j a).getD i 0 = b.bytes.getD i 0 := by
    intro j i a hji
    rw [List.getD_eq_getElem?_getD, List.getElem?_set_ne hji,
      List.getD_eq_getElem?_getD]
  have hset_same : ∀ (i a : Nat), i < 16 → (b.bytes.set i a).getD i 0 = a := by
    intro i a hi
    rw [List.getD_eq_getElem?_getD, List.getElem?_set_eq_of_lt a (by omega)]
    rfl
  refine ⟨?_, ?_, rfl, ?_⟩
  · simp [Builder.set_version, hlen]
  · intro i hi
    simp only [Builder.set_version]
    exact hset_other 6 i _ (by omega)
  · simp only [Builder.set_version]
    rw [hset_same 6 _ (by omega)]
    have hsh : (v <<< 4) % 256 = v <<< 4 :=
      Nat.mod_eq_of_lt (by simp [Nat.shiftLeft_eq]; omega)
    rw [hsh]

/-- Witness for C9 on a concrete builder with version 4. -/
theorem builder_version_tagging_spec_witness :
    (Builder.from_bytes
        [4, 54, 67, 12, 43, 2, 0xA7, 76, 32, 50, 87, 5, 1, 33, 43, 87]).bytes.length = 16 ∧
    4 < 16 ∧
    ((Builder.set_version (Builder.from_bytes
          [4, 54, 67, 12, 43, 2, 0xA7, 76, 32, 50, 87, 5, 1, 33, 43, 87]) 4).bytes.length = 16 ∧
      (∀ i, i ≠ 6 →
        (Builder.set_version (Builder.from_bytes
            [4, 54, 67, 12, 43, 2, 0xA7, 76, 32, 50, 87, 5, 1, 33, 43, 87]) 4).bytes.getD i 0 =
        (Builder.from_bytes
            [4, 54, 67, 12, 43, 2, 0xA7, 76, 32, 50, 87, 5, 1, 33, 43, 87]).bytes.getD i 0) ∧
      Builder.with_version (Builder.from_bytes
          [4, 54, 67, 12, 43, 2, 0xA7, 76, 32, 50, 87, 5, 1, 33, 43, 87]) 4 =
        Builder.set_version (Builder.from_bytes
          [4, 54, 67, 12, 43, 2, 0xA7, 76, 32, 50, 87, 5, 1, 33, 43, 87]) 4 ∧
      (Builder.set_version (Builder.from_bytes
          [4, 54, 67, 12, 43, 2, 0xA7, 76, 32, 50, 87, 5, 1, 33, 43, 87]) 4).bytes.getD 6 0 =
        ((Builder.from_bytes
            [4, 54, 67, 12, 43, 2, 0xA7, 76, 32, 50, 87, 5, 1, 33, 43, 87]).bytes.getD 6 0 &&& 0x0f) |||
          (4 <<< 4)) :=
  ⟨by decide, by decide,
    builder_version_tagging_spec
      (Builder.from_bytes
        [4, 54, 67, 12, 43, 2, 0xA7, 76, 32, 50, 87, 5, 1, 33, 43, 87])
      (by decide) 4 (by decide)⟩

/-- Claim C10: variant and version tagging are order-independent and
idempotent: for every 16-byte builder state, `set_variant x` then
`set_version y` equals `set_version y` then `set_variant x`; and applying
`set_variant x` (or `set_version y`) twice equals applying it once. -/
theorem builder_tagging_commutes_and_idempotent (b : Builder)
    (hlen : b.bytes.length = 16) (hb6 : b.bytes.getD 6 0 < 256)
    (hb8 : b.bytes.getD 8 0 < 256) (x : Variant) (y : Nat) (hy : y < 16) :
    (b.set_variant x).set_version y = (b.set_version y).set_variant x ∧
    (b.set_variant x).set_variant x = b.set_variant x ∧
    (b.set_version y).set_version y = b.set_version y := by
  have hset_other : ∀ (j i a : Nat), j ≠ i →
      (b.bytes.set j a).getD i 0 = b.bytes.getD i 0 := by
    intro j i a hji
    rw [List.getD_eq_getElem?_getD, List.getElem?_set_ne hji,
      List.getD_eq_getElem?_getD]
  have hset_same : ∀ (i a : Nat), i < 16 → (b.bytes.set i a).getD i 0 = a := by
    intro i a hi
    rw [List.getD_eq_getElem?_getD, List.getElem?_set_eq_of_lt a (by omega)]
    rfl
  refine ⟨?_, ?_, ?_⟩
  · simp only [Builder.set_variant, Builder.set_version]
    rw [hset_other 8 6 _ (by omega), hset_other 6 8 _ (by omega), List.set_comm]
    omega
  · obtain ⟨i1, i2, i3, i4⟩ := variant_byte_idem (b.bytes.getD 8 0) hb8
    cases x with
    | NCS =>
        simp only [Builder.set_variant]
        rw [hset_same 8 _ (by omega), List.set_set, i1]
    | RFC4122 =>
        simp only [Builder.set_variant]
        rw [hset_same 8 _ (by omega), List.set_set, i2]
    | Microsoft =>
        simp only [Builder.set_variant]
        rw [hset_same 8 _ (by omega), List.set_set, i3]
    | Future =>
        simp only [Builder.set_variant]
        rw [hset_same 8 _ (by omega), List.set_set, i4]
  · have iv := version_byte_idem (b.bytes.getD 6 0) hb6 y hy
    simp only [Builder.set_version]
    rw [hset_same 6 _ (by omega), List.set_set, iv]

/-- Witness for C10 on a concrete builder, variant RFC4122 and version 4. -/
theorem builder_tagging_commutes_and_idempotent_witness :
    (Builder.from_bytes
        [70, 235, 208, 238, 14, 109, 67, 201, 185, 13, 204, 195, 90, 145, 63, 62]).bytes.length = 16 ∧
    (Builder.from_bytes
        [70, 235, 208, 238, 14, 109, 67, 201, 185, 13, 204, 195, 90, 145, 63, 62]).bytes.getD 6 0 < 256 ∧
    (Builder.from_bytes
        [70, 235, 208, 238, 14, 109, 67, 201, 185, 13, 204, 195, 90, 145, 63, 62]).bytes.getD 8 0 < 256 ∧
    4 < 16 ∧
    (((Builder.from_bytes
          [70, 235, 208, 238, 14, 109, 67, 201, 185, 13, 204, 195, 90, 145, 63, 62]).set_variant
        Variant.RFC4122).set_version 4 =
      ((Builder.from_bytes
          [70, 235, 208, 238, 14, 109, 67, 201, 185, 13, 204, 195, 90, 145, 63, 62]).set_version
        4).set_variant Variant.RFC4122 ∧
      ((Builder.from_bytes
          [70, 235, 208, 238, 14, 109, 67, 201, 185, 13, 204, 195, 90, 145, 63, 62]).set_variant
        Variant.RFC4122).set_variant Variant.RFC4122 =
      (Builder.from_bytes
          [70, 235, 208, 238, 14, 109, 67, 201, 185, 13, 204, 195, 90, 145, 63, 62]).set_variant
        Variant.RFC4122 ∧
      ((Builder.from_bytes
          [70, 235, 208, 238, 14, 109, 67, 201, 185, 13, 204, 195, 90, 145, 63, 62]).set_version
        4).set_version 4 =
      (Builder.from_bytes
          [70, 235, 208, 238, 14, 109, 67, 201, 185, 13, 204, 195, 90, 145, 63, 62]).set_version 4) :=
  ⟨by decide, by decide, by decide, by decide,
    builder_tagging_commutes_and_idempotent
      (Builder.from_bytes
        [70, 235, 208, 238, 14, 109, 67, 201, 185, 13, 204, 195, 90, 145, 63, 62])
      (by decide) (by decide) (by decide) Variant.RFC4122 4 (by decide)⟩
